import Mathlib

/-!
Shallow embedding of the bulk-fetch kernel of the gathermedata repository
(download_safedocs.py, download_unsafedocs.py, download_govdocs.py,
download_digitalcorpora_scenarios.py, data_loader.py).

Environment effects (filesystem and network) are made explicit: the local
filesystem is a map from destination paths to `Option Nat` (`none` = absent,
`some size` = a file of that size is present), and the behaviour of the
network on the k-th attempt of a fallible operation is an explicit function
of k (`Except` value: `.error e` models a raised Python exception carrying
message e, `.ok v` models a normal return of v).
-/

/-- MAX_RETRIES constant, value 3 in every script of the repository. -/
def MAX_RETRIES : Nat := 3

/-- RETRY_DELAY constant (seconds), value 2 in every script of the repository. -/
def RETRY_DELAY : Nat := 2

/-- FetchOutcome of one item in the per-file downloaders: the first component
of the tuples ('skipped', key), ('downloaded', key), ('failed', key, err)
returned by download_single_file in download_safedocs.py /
download_unsafedocs.py. -/
inductive Outcome where
  | downloaded : Outcome
  | skipped : Outcome
  | failed (err : String) : Outcome
  deriving DecidableEq

/-- Recogniser for the downloaded variant. -/
def Outcome.isDownloaded : Outcome → Bool
  | .downloaded => true
  | _ => false

/-- Recogniser for the skipped variant. -/
def Outcome.isSkipped : Outcome → Bool
  | .skipped => true
  | _ => false

/-- Recogniser for the failed variant. -/
def Outcome.isFailed : Outcome → Bool
  | .failed _ => true
  | _ => false

/-- RunTally: the stats dict {'downloaded': 0, 'skipped': 0, 'failed': 0}
accumulated by the result loop of download_safedocs (lines 180-210). -/
structure RunTally where
  downloaded : Nat
  skipped : Nat
  failed : Nat
  deriving DecidableEq

/-- One step of the stats accumulation in the as_completed loop of
download_safedocs: the matched status increments exactly one counter. -/
def stats_add (t : RunTally) : Outcome → RunTally
  | .downloaded => { t with downloaded := t.downloaded + 1 }
  | .skipped => { t with skipped := t.skipped + 1 }
  | .failed _ => { t with failed := t.failed + 1 }

/-- Tally of a run: fold of stats_add over the per-item outcomes, starting
from the zero stats dict. -/
def download_stats (os : List Outcome) : RunTally :=
  os.foldl stats_add ⟨0, 0, 0⟩

/-- Local filesystem state: destination path to `none` (absent) or
`some size` (present, with size in bytes). os.path.exists(p) is
(store p).isSome. -/
def FileStore : Type := String → Option Nat

/-- One enumerated item: its S3 key, its resolved destination path, and the
behaviour of the network on the k-th fetch attempt for it (`.ok size` models
s3_client.download_file succeeding and writing a file of that size;
`.error e` models any exception raised inside the try body). -/
structure SItem where
  key : String
  path : String
  fetchAt : Nat → Except String Nat

/-- Effect on the filesystem of a successful s3_client.download_file: the
destination path now holds a file of the downloaded size. -/
def updateStore (store : FileStore) (p : String) (sz : Nat) : FileStore :=
  fun q => if q = p then some sz else store q

/-- StepResult of processing one item: its outcome, the filesystem after the
item resolved, how many times the fetch was invoked, and the sleeps performed
between attempts. -/
structure StepResult where
  outcome : Outcome
  store : FileStore
  attempts : Nat
  delays : List Nat

/-- Loop body of download_single_file (download_safedocs.py lines 83-100):
`for attempt in range(MAX_RETRIES)`, with fuel = remaining iterations and
k = current value of attempt. Each iteration re-checks os.path.exists
(the store is unchanged until a successful download), then attempts the
fetch; a raised fault on the last attempt returns ('failed', key, str(e)),
otherwise the loop sleeps RETRY_DELAY and retries. The fuel-0 case is the
unreachable fall-through `return ('failed', key, 'Max retries exceeded')`. -/
def itemStepGo (store : FileStore) (it : SItem) : Nat → Nat → StepResult
  | 0, _ => ⟨.failed "Max retries exceeded", store, 0, []⟩
  | fuel + 1, k =>
    if (store it.path).isSome then ⟨.skipped, store, 0, []⟩
    else
      match it.fetchAt k with
      | .ok sz => ⟨.downloaded, updateStore store it.path sz, 1, []⟩
      | .error e =>
        if k = MAX_RETRIES - 1 then ⟨.failed e, store, 1, []⟩
        else
          let r := itemStepGo store it fuel (k + 1)
          ⟨r.outcome, r.store, r.attempts + 1, RETRY_DELAY :: r.delays⟩

/-- download_single_file of download_safedocs.py / download_unsafedocs.py
(identical in both), as a function of the filesystem and of the item's
network behaviour. -/
def download_single_file (store : FileStore) (it : SItem) : StepResult :=
  itemStepGo store it MAX_RETRIES 0

/-- Engine run of download_safedocs (lines 180-210): every enumerated item is
submitted exactly once to the pool and each completed future's status is
tallied exactly once. The shallow embedding sequentialises the pool: items
are processed in order, threading the filesystem; the returned list holds the
outcome of each item in submission order. -/
def download_safedocs_run (store : FileStore) : List SItem → List Outcome × FileStore
  | [] => ([], store)
  | it :: rest =>
    let r := download_single_file store it
    let res := download_safedocs_run r.store rest
    (r.outcome :: res.1, res.2)

lemma stats_foldl (os : List Outcome) (t : RunTally) :
    os.foldl stats_add t =
      ⟨t.downloaded + os.countP Outcome.isDownloaded,
       t.skipped + os.countP Outcome.isSkipped,
       t.failed + os.countP Outcome.isFailed⟩ := by
  induction os generalizing t with
  | nil => simp
  | cons o os ih =>
    cases o <;>
      simp [List.countP_cons, stats_add, ih, Outcome.isDownloaded,
        Outcome.isSkipped, Outcome.isFailed, RunTally.mk.injEq] <;> omega

lemma countP_outcomes_sum (os : List Outcome) :
    os.countP Outcome.isDownloaded + os.countP Outcome.isSkipped +
      os.countP Outcome.isFailed = os.length := by
  induction os with
  | nil => simp
  | cons o os ih =>
    cases o <;>
      simp [List.countP_cons, Outcome.isDownloaded, Outcome.isSkipped,
        Outcome.isFailed] <;> omega

lemma download_safedocs_run_length (store : FileStore) (items : List SItem) :
    ((download_safedocs_run store items).1).length = items.length := by
  induction items generalizing store with
  | nil => simp [download_safedocs_run]
  | cons it rest ih => simp [download_safedocs_run, ih]

/-- C1: for every enumerated item sequence of size N processed by one engine
run of download_safedocs, every enumerated item yields exactly one
FetchOutcome (one list entry per item, so no item is fetched more than once
within the run), and the final tally satisfies
downloaded + skipped + failed = N. -/
theorem C1_one_outcome_per_item_and_tally_sums (store : FileStore)
    (items : List SItem) :
    ((download_safedocs_run store items).1).length = items.length ∧
    (download_stats (download_safedocs_run store items).1).downloaded +
      (download_stats (download_safedocs_run store items).1).skipped +
      (download_stats (download_safedocs_run store items).1).failed =
      items.length := by
  refine ⟨download_safedocs_run_length store items, ?_⟩
  rw [← download_safedocs_run_length store items]
  simp [download_stats, stats_foldl]
  exact countP_outcomes_sum _

/-- Loop body of the retry_download wrapper (data_loader.py lines 32-45,
textually identical in download_govdocs.py and
download_digitalcorpora_scenarios.py): `for attempt in range(MAX_RETRIES)`,
with fuel = remaining iterations and k = current value of attempt. A normal
return of func (`.ok a`) is returned immediately; a raised fault on the last
attempt yields None; otherwise the wrapper sleeps RETRY_DELAY and retries.
Returns (result, number of invocations of func, list of sleeps performed).
The fuel-0 case is the unreachable `return None` after the loop. -/
def retryDownloadGo {A : Type} (opAt : Nat → Except String A) :
    Nat → Nat → Option A × Nat × List Nat
  | 0, _ => (none, 0, [])
  | fuel + 1, k =>
    match opAt k with
    | .ok a => (some a, 1, [])
    | .error _ =>
      if k = MAX_RETRIES - 1 then (none, 1, [])
      else
        let r := retryDownloadGo opAt fuel (k + 1)
        (r.1, r.2.1 + 1, RETRY_DELAY :: r.2.2)

/-- retry_download decorator of data_loader.py (also present verbatim in
download_govdocs.py and download_digitalcorpora_scenarios.py), applied to an
operation whose behaviour on the k-th attempt is opAt k. -/
def retry_download {A : Type} (opAt : Nat → Except String A) :
    Option A × Nat × List Nat :=
  retryDownloadGo opAt MAX_RETRIES 0

/-- Outcome tuple variants of download_single_thread in download_govdocs.py:
('success', n, file_count), ('skipped', n, 0), ('failed', n, 0). -/
inductive GovOutcome where
  | success (fileCount : Nat) : GovOutcome
  | skipped : GovOutcome
  | failed : GovOutcome
  deriving DecidableEq

/-- Already-downloaded check of download_single_thread (download_govdocs.py
line 98): `os.path.exists(thread_dir) and len(os.listdir(thread_dir)) > 0`.
The directory state is `none` when the directory does not exist, else the
list of its entries. -/
def dirExistsNonEmpty : Option (List String) → Bool
  | some entries => entries.length > 0
  | none => false

/-- download_single_thread of download_govdocs.py (lines 91-126). The
behaviour of fetch_thread's body on the k-th attempt is fetchAt k:
`.error e` models a raised fault (network error, decode error during
extraction), `.ok none` models requests returning a non-200 status (the
function returns None without raising), `.ok (some c)` models a 200 response
fully downloaded and extracted to c files. The Python `if result:` is
truthiness on the wrapper's return value: None and 0 are both falsy. -/
def download_single_thread (dir : Option (List String))
    (fetchAt : Nat → Except String (Option Nat)) : GovOutcome :=
  if dirExistsNonEmpty dir then .skipped
  else
    match (retry_download fetchAt).1 with
    | some (some c) => if c = 0 then .failed else .success c
    | some none => .failed
    | none => .failed

/-- Already-extracted check of download_sec_financials (data_loader.py line
205): `os.path.exists(extract_dir)` — mere existence of the extraction
directory, with no completion marker and no emptiness check. -/
def download_sec_financials_skip (extractDir : Option (List String)) : Bool :=
  extractDir.isSome

/-- download_file_from_s3 of download_digitalcorpora_scenarios.py (lines
130-138): a single try/except with no retry; any raised fault is caught and
converted into the return value False. -/
def download_file_from_s3 (fetch : Except String Unit) : Bool :=
  match fetch with
  | .ok _ => true
  | .error _ => false

lemma retry_download_eq {A : Type} (opAt : Nat → Except String A) :
    retry_download opAt =
      match opAt 0 with
      | .ok a => (some a, 1, [])
      | .error _ =>
        match opAt 1 with
        | .ok a => (some a, 2, [RETRY_DELAY])
        | .error _ =>
          match opAt 2 with
          | .ok a => (some a, 3, [RETRY_DELAY, RETRY_DELAY])
          | .error _ => (none, 3, [RETRY_DELAY, RETRY_DELAY]) := by
  cases h0 : opAt 0 <;> cases h1 : opAt 1 <;> cases h2 : opAt 2 <;>
    simp [retry_download, retryDownloadGo, MAX_RETRIES, h0, h1, h2]

lemma download_single_file_eq (store : FileStore) (it : SItem) :
    download_single_file store it =
      if (store it.path).isSome then ⟨.skipped, store, 0, []⟩
      else
        match it.fetchAt 0 with
        | .ok sz => ⟨.downloaded, updateStore store it.path sz, 1, []⟩
        | .error _ =>
          match it.fetchAt 1 with
          | .ok sz => ⟨.downloaded, updateStore store it.path sz, 2, [RETRY_DELAY]⟩
          | .error _ =>
            match it.fetchAt 2 with
            | .ok sz =>
                ⟨.downloaded, updateStore store it.path sz, 3,
                  [RETRY_DELAY, RETRY_DELAY]⟩
            | .error e =>
                ⟨.failed e, store, 3, [RETRY_DELAY, RETRY_DELAY]⟩ := by
  by_cases hs : (store it.path).isSome <;>
    cases h0 : it.fetchAt 0 <;> cases h1 : it.fetchAt 1 <;>
      cases h2 : it.fetchAt 2 <;>
        simp [download_single_file, itemStepGo, MAX_RETRIES, hs, h0, h1, h2]

lemma download_single_file_succeedsAfter (store : FileStore) (it : SItem)
    (j sz : Nat) (e : Nat → String) (hstore : store it.path = none)
    (hj : j < MAX_RETRIES) (hfail : ∀ k, k < j → it.fetchAt k = .error (e k))
    (hok : it.fetchAt j = .ok sz) :
    download_single_file store it =
      ⟨.downloaded, updateStore store it.path sz, j + 1,
        List.replicate j RETRY_DELAY⟩ := by
  have hs : (store it.path).isSome = false := by simp [hstore]
  have hj' : j < 3 := by simpa [MAX_RETRIES] using hj
  rw [download_single_file_eq]
  interval_cases j
  · simp [hs, hok]
  · have h0 := hfail 0 (by omega)
    simp [hs, h0, hok, List.replicate]
  · have h0 := hfail 0 (by omega)
    have h1 := hfail 1 (by omega)
    simp [hs, h0, h1, hok, List.replicate]

lemma download_single_file_allFail (store : FileStore) (it : SItem)
    (e : Nat → String) (hstore : store it.path = none)
    (hfail : ∀ k, k < MAX_RETRIES → it.fetchAt k = .error (e k)) :
    download_single_file store it =
      ⟨.failed (e (MAX_RETRIES - 1)), store, MAX_RETRIES,
        List.replicate (MAX_RETRIES - 1) RETRY_DELAY⟩ := by
  have hs : (store it.path).isSome = false := by simp [hstore]
  have h0 := hfail 0 (by simp [MAX_RETRIES])
  have h1 := hfail 1 (by simp [MAX_RETRIES])
  have h2 := hfail 2 (by simp [MAX_RETRIES])
  rw [download_single_file_eq]
  simp [hs, h0, h1, h2, MAX_RETRIES, List.replicate]

/-- C2: the retry policy invokes the wrapped operation at most MAX_RETRIES
times with a fixed (non-increasing) RETRY_DELAY sleep between consecutive
attempts; an item whose fetch raises on j attempts (j < MAX_RETRIES) and
then succeeds is recorded as Downloaded with j + 1 attempts made; one whose
fetch raises on all MAX_RETRIES attempts is recorded as Failed carrying the
last error, with attempts made = MAX_RETRIES. -/
theorem C2_retry_policy :
    (∀ (store : FileStore) (it : SItem),
        (download_single_file store it).attempts ≤ MAX_RETRIES ∧
        (download_single_file store it).delays =
          List.replicate ((download_single_file store it).attempts - 1)
            RETRY_DELAY) ∧
    (∀ (A : Type) (opAt : Nat → Except String A),
        (retry_download opAt).2.1 ≤ MAX_RETRIES ∧
        (retry_download opAt).2.2 =
          List.replicate ((retry_download opAt).2.1 - 1) RETRY_DELAY) ∧
    (∀ (store : FileStore) (it : SItem) (j sz : Nat) (e : Nat → String),
        store it.path = none → j < MAX_RETRIES →
        (∀ k, k < j → it.fetchAt k = .error (e k)) →
        it.fetchAt j = .ok sz →
        download_single_file store it =
          ⟨.downloaded, updateStore store it.path sz, j + 1,
            List.replicate j RETRY_DELAY⟩) ∧
    (∀ (store : FileStore) (it : SItem) (e : Nat → String),
        store it.path = none →
        (∀ k, k < MAX_RETRIES → it.fetchAt k = .error (e k)) →
        download_single_file store it =
          ⟨.failed (e (MAX_RETRIES - 1)), store, MAX_RETRIES,
            List.replicate (MAX_RETRIES - 1) RETRY_DELAY⟩) := by
  refine ⟨?_, ?_, download_single_file_succeedsAfter,
    download_single_file_allFail⟩
  · intro store it
    rw [download_single_file_eq]
    by_cases hs : (store it.path).isSome <;>
      cases h0 : it.fetchAt 0 <;> cases h1 : it.fetchAt 1 <;>
        cases h2 : it.fetchAt 2 <;>
          simp [hs, h0, h1, h2, MAX_RETRIES, List.replicate]
  · intro A opAt
    rw [retry_download_eq]
    cases h0 : opAt 0 <;> cases h1 : opAt 1 <;> cases h2 : opAt 2 <;>
      simp [h0, h1, h2, MAX_RETRIES, List.replicate]

/-- Witness for C2 at a concrete item whose fetch raises once and then
succeeds: it resolves as Downloaded with 2 attempts and one fixed sleep. -/
theorem C2_retry_policy_witness :
    download_single_file (fun _ => none)
        ⟨"k", "p", fun k => if k < 1 then .error "timeout" else .ok 7⟩ =
      ⟨.downloaded, updateStore (fun _ => none) "p" 7, 2,
        List.replicate 1 RETRY_DELAY⟩ :=
  C2_retry_policy.2.2.1 (fun _ => none)
    ⟨"k", "p", fun k => if k < 1 then .error "timeout" else .ok 7⟩
    1 7 (fun _ => "timeout") rfl (by simp [MAX_RETRIES])
    (by intro k hk; simp [hk]) (by simp)

/-- C3: no fault raised while processing an item propagates out of the engine
run: the run is a total function producing exactly one outcome per enumerated
item in every environment; an item whose destination is absent and whose
fetch raises on every attempt resolves to a Failed outcome after retry
exhaustion, leaving the filesystem unchanged (so every other item is still
processed on the same store); and download_file_from_s3 of the scenarios
script converts any raised fault into the return value False. -/
theorem C3_no_fault_propagates :
    (∀ (store : FileStore) (items : List SItem),
        ((download_safedocs_run store items).1).length = items.length) ∧
    (∀ (store : FileStore) (it : SItem) (e : Nat → String),
        store it.path = none →
        (∀ k, k < MAX_RETRIES → it.fetchAt k = Except.error (e k)) →
        (download_single_file store it).outcome =
            .failed (e (MAX_RETRIES - 1)) ∧
          (download_single_file store it).store = store) ∧
    (∀ e, download_file_from_s3 (Except.error e) = false) := by
  refine ⟨download_safedocs_run_length, ?_, fun _ => rfl⟩
  intro store it e hstore hfail
  rw [download_single_file_allFail store it e hstore hfail]
  exact ⟨rfl, rfl⟩

/-- Witness for C3 at a concrete item whose fetch raises on every attempt:
the outcome is Failed with the last error and the store is unchanged. -/
theorem C3_no_fault_propagates_witness :
    (download_single_file (fun _ => none)
        ⟨"k", "p", fun _ => .error "conn reset"⟩).outcome =
      .failed "conn reset" ∧
    (download_single_file (fun _ => none)
        ⟨"k", "p", fun _ => .error "conn reset"⟩).store = (fun _ => none) :=
  C3_no_fault_propagates.2.1 (fun _ => none)
    ⟨"k", "p", fun _ => .error "conn reset"⟩ (fun _ => "conn reset") rfl
    (fun _ _ => rfl)

lemma download_single_file_of_present (store : FileStore) (it : SItem)
    (hs : (store it.path).isSome = true) :
    download_single_file store it = ⟨.skipped, store, 0, []⟩ := by
  rw [download_single_file_eq]
  simp [hs]

/-- Spec-side predicate for C4: the destination "exists and is non-empty".
Stated from the claim's words (a present file of size at least one byte), to
be compared with the code's behaviour, which only calls os.path.exists. -/
def fileNonEmpty : Option Nat → Bool
  | some (_ + 1) => true
  | _ => false

/-- C4 counterexample: with an empty file (size 0) already present at the
destination and a fetch that would succeed, download_single_file emits
Skipped, although the claim's condition "exists and is non-empty" is false
there — the code's skip check is plain os.path.exists, with no emptiness
test. -/
theorem C4_counterexample :
    ¬ (((download_single_file
          (fun p => if p = "doc.pdf" then some 0 else none)
          ⟨"k", "doc.pdf", fun _ => .ok 7⟩).outcome = .skipped) ↔
        (((fun p => if p = "doc.pdf" then some 0 else none : FileStore)
            "doc.pdf").isSome = true ∧
          fileNonEmpty
            ((fun p => if p = "doc.pdf" then some 0 else none : FileStore)
              "doc.pdf") = true)) := by
  decide

/-- C4 amended: in the per-file downloaders (download_safedocs.py /
download_unsafedocs.py), an item is Skipped if and only if its destination
path exists — emptiness is not consulted — and when it is skipped no fetch
is performed and the store is unchanged; in the per-shard downloader
(download_govdocs.py), a shard is Skipped if and only if its destination
directory exists and is non-empty. -/
theorem C4_amended_skip_conditions :
    (∀ (store : FileStore) (it : SItem),
        ((download_single_file store it).outcome = .skipped ↔
          (store it.path).isSome = true)) ∧
    (∀ (store : FileStore) (it : SItem), (store it.path).isSome = true →
        download_single_file store it = ⟨.skipped, store, 0, []⟩) ∧
    (∀ (dir : Option (List String))
        (fetchAt : Nat → Except String (Option Nat)),
        (download_single_thread dir fetchAt = .skipped ↔
          dirExistsNonEmpty dir = true)) := by
  refine ⟨?_, ?_, ?_⟩
  · intro store it
    rw [download_single_file_eq]
    by_cases hs : (store it.path).isSome <;>
      cases h0 : it.fetchAt 0 <;> cases h1 : it.fetchAt 1 <;>
        cases h2 : it.fetchAt 2 <;> simp [hs, h0, h1, h2]
  · exact download_single_file_of_present
  · intro dir fetchAt
    by_cases hd : dirExistsNonEmpty dir
    · simp [download_single_thread, hd]
    · cases h : (retry_download fetchAt).1 with
      | none => simp [download_single_thread, hd, h]
      | some r =>
        cases r with
        | none => simp [download_single_thread, hd, h]
        | some c => by_cases hc : c = 0 <;>
            simp [download_single_thread, hd, h, hc]

/-- Witness for C4 amended at a concrete present destination: the item is
skipped with zero fetch attempts and an unchanged store. -/
theorem C4_amended_skip_conditions_witness :
    download_single_file (fun _ => some 5) ⟨"k", "p", fun _ => .ok 1⟩ =
      ⟨.skipped, (fun _ => some 5), 0, []⟩ :=
  C4_amended_skip_conditions.2.1 (fun _ => some 5)
    ⟨"k", "p", fun _ => .ok 1⟩ rfl

/-- C5, code behaviour at the failing input: a GovDocs shard directory left
non-empty by an interrupted extraction is treated as already present and
skipped on the next run — no completion marker is consulted — even though a
fresh fetch would succeed and extract the full shard; the SEC quarterly
check gates on mere directory existence, so even an empty extraction
directory left behind by a failed extraction counts as already extracted. -/
theorem C5_partial_extraction_counts_as_present :
    download_single_thread (some ["0000000.pdf"])
        (fun _ => .ok (some 984)) = .skipped ∧
    download_sec_financials_skip (some []) = true := by
  constructor <;> rfl

/-- C6 counterexample: a fetch that raises a network error on every attempt
is invoked MAX_RETRIES times by the retry policy, while one that meets a
non-2xx HTTP status (fetch_thread returns None without raising) is invoked
exactly once — the two fault kinds are not treated uniformly. -/
theorem C6_counterexample :
    (retry_download
        (fun _ => (Except.error "ConnectionError" :
          Except String (Option Nat)))).2.1 = MAX_RETRIES ∧
    (retry_download
        (fun _ => (Except.ok (none : Option Nat) :
          Except String (Option Nat)))).2.1 = 1 ∧
    MAX_RETRIES ≠ 1 := by
  decide

/-- C6 amended: all raised faults (network errors, decode errors) are
treated uniformly by the retry policy — the result depends only on which
attempts raise, never on the kind or text of the error, with a fixed
RETRY_DELAY sleep between attempts and at most MAX_RETRIES attempts; but a
non-2xx HTTP status does not raise: the wrapped fetch returns None, which
the wrapper passes through as a result after a single attempt, with no
retry. -/
theorem C6_amended_uniform_only_for_raised_faults :
    (∀ (op : Nat → Except String (Option Nat)) (j : Nat) (v : Option Nat)
        (e : Nat → String),
        j < MAX_RETRIES → (∀ k, k < j → op k = .error (e k)) →
        op j = .ok v →
        retry_download op = (some v, j + 1, List.replicate j RETRY_DELAY)) ∧
    (∀ (op : Nat → Except String (Option Nat)) (e : Nat → String),
        (∀ k, k < MAX_RETRIES → op k = .error (e k)) →
        retry_download op =
          (none, MAX_RETRIES, List.replicate (MAX_RETRIES - 1) RETRY_DELAY)) := by
  constructor
  · intro op j v e hj hfail hok
    have hj' : j < 3 := by simpa [MAX_RETRIES] using hj
    rw [retry_download_eq]
    interval_cases j
    · simp [hok]
    · have h0 := hfail 0 (by omega)
      simp [h0, hok, List.replicate]
    · have h0 := hfail 0 (by omega)
      have h1 := hfail 1 (by omega)
      simp [h0, h1, hok, List.replicate]
  · intro op e hfail
    have h0 := hfail 0 (by simp [MAX_RETRIES])
    have h1 := hfail 1 (by simp [MAX_RETRIES])
    have h2 := hfail 2 (by simp [MAX_RETRIES])
    rw [retry_download_eq]
    simp [h0, h1, h2, MAX_RETRIES, List.replicate]

/-- Witness for C6 amended: an operation raising once and then meeting a
non-2xx status is invoked twice in total and its None result is returned
without further retries. -/
theorem C6_amended_witness :
    retry_download
        (fun k => if k = 0 then (Except.error "HTTPSConnectionPool" :
          Except String (Option Nat)) else .ok none) =
      (some none, 2, List.replicate 1 RETRY_DELAY) :=
  C6_amended_uniform_only_for_raised_faults.1
    (fun k => if k = 0 then .error "HTTPSConnectionPool" else .ok none)
    1 none (fun _ => "HTTPSConnectionPool") (by simp [MAX_RETRIES])
    (by intro k hk; interval_cases k; rfl) rfl

/-- Python str.endswith, executably: t is a final segment of s's character
sequence. -/
def pyEndsWith (s t : String) : Bool :=
  decide (t.data.length ≤ s.data.length) &&
    (s.data.drop (s.data.length - t.data.length) == t.data)

/-- Directory-marker test of list_s3_files (download_safedocs.py line 116):
key.endswith('/'). -/
def isDirMarker (k : String) : Bool := pyEndsWith k "/"

/-- Python truthiness of `limit and len(files) >= limit` in list_s3_files
(line 120): None and 0 are falsy, so no limit and a limit of 0 never stop
the listing; any other integer limit stops it once len(files) >= limit. -/
def limitHit : Option Int → Nat → Bool
  | none, _ => false
  | some l, n => l != 0 && decide ((n : Int) ≥ l)

/-- Inner loop of list_s3_files (lines 113-122) over one page's Contents:
keys ending in '/' are skipped, any other key is appended to files, and
immediately after each append the limit test runs; on a hit the function
returns the files collected so far (second component true means an early
return happened inside this page). -/
def listPageGo (limit : Option Int) :
    List String → List String → List String × Bool
  | [], acc => (acc, false)
  | key :: ks, acc =>
    if isDirMarker key then listPageGo limit ks acc
    else
      if limitHit limit (acc ++ [key]).length then (acc ++ [key], true)
      else listPageGo limit ks (acc ++ [key])

/-- Outer pagination loop of list_s3_files (lines 109-128): pages are
consumed in order from the lazy paginator; the returned Nat counts how many
pages were fetched before the function returned, so pages after an early
return are never requested from the remote source. -/
def listS3Go (limit : Option Int) :
    List (List String) → List String → List String × Nat
  | [], acc => (acc, 0)
  | page :: rest, acc =>
    let r := listPageGo limit page acc
    if r.2 then (r.1, 1)
    else
      let res := listS3Go limit rest r.1
      (res.1, res.2 + 1)

/-- list_s3_files of download_safedocs.py / download_unsafedocs.py (identical
in both), over an explicit page sequence standing for the S3 listing,
returning the files list together with the number of pages consumed. -/
def list_s3_files (limit : Option Int) (pages : List (List String)) :
    List String × Nat :=
  listS3Go limit pages []

/-- Keys of one page that list_s3_files keeps (those that are not directory
markers). -/
def pageValid (page : List String) : List String :=
  page.filter (fun k => !isDirMarker k)

/-- Number of keepable keys in a page sequence. -/
def countValid (pages : List (List String)) : Nat :=
  (pages.map (fun p => (pageValid p).length)).sum

lemma limitHit_iff (L m : Nat) (hL : 1 ≤ L) :
    limitHit (some (L : Int)) m = true ↔ L ≤ m := by
  simp only [limitHit, Bool.and_eq_true, bne_iff_ne, ne_eq, decide_eq_true_eq,
    ge_iff_le]
  omega

lemma pageValid_cons_marker (key : String) (ks : List String)
    (h : isDirMarker key = true) : pageValid (key :: ks) = pageValid ks := by
  simp [pageValid, h]

lemma pageValid_cons_keep (key : String) (ks : List String)
    (h : isDirMarker key = false) :
    pageValid (key :: ks) = key :: pageValid ks := by
  simp [pageValid, h]

lemma listPageGo_spec (L : Nat) (hL : 1 ≤ L) (page : List String) :
    ∀ acc : List String, acc.length < L →
      ((listPageGo (some (L : Int)) page acc).2 = true ∧
        (listPageGo (some (L : Int)) page acc).1.length = L ∧
        L ≤ acc.length + (pageValid page).length) ∨
      ((listPageGo (some (L : Int)) page acc).2 = false ∧
        (listPageGo (some (L : Int)) page acc).1 = acc ++ pageValid page ∧
        acc.length + (pageValid page).length < L) := by
  induction page with
  | nil =>
    intro acc hacc
    right
    refine ⟨rfl, by simp [listPageGo, pageValid], ?_⟩
    simpa [pageValid] using hacc
  | cons key ks ih =>
    intro acc hacc
    by_cases hm : isDirMarker key
    · have hstep : listPageGo (some (L : Int)) (key :: ks) acc =
          listPageGo (some (L : Int)) ks acc := by
        simp [listPageGo, hm]
      rw [hstep, pageValid_cons_marker key ks hm]
      exact ih acc hacc
    · have hm' : isDirMarker key = false := by simpa using hm
      by_cases hHit : L ≤ acc.length + 1
      · have hhit : limitHit (some (L : Int)) (acc.length + 1) = true := by
          rw [limitHit_iff _ _ hL]
          simpa using hHit
        have hstep : listPageGo (some (L : Int)) (key :: ks) acc =
            (acc ++ [key], true) := by
          simp [listPageGo, hm', hhit]
        rw [hstep, pageValid_cons_keep key ks hm']
        left
        refine ⟨rfl, ?_, ?_⟩
        · simp
          omega
        · simp
          omega
      · have hhit : limitHit (some (L : Int)) (acc.length + 1) = false := by
          rw [← Bool.not_eq_true, limitHit_iff _ _ hL]
          simpa using hHit
        have hstep : listPageGo (some (L : Int)) (key :: ks) acc =
            listPageGo (some (L : Int)) ks (acc ++ [key]) := by
          simp [listPageGo, hm', hhit]
        rw [hstep, pageValid_cons_keep key ks hm']
        have hrec := ih (acc ++ [key]) (by simp; omega)
        rcases hrec with ⟨h2, hlen, hle⟩ | ⟨h2, heq, hlt⟩
        · left
          refine ⟨h2, hlen, ?_⟩
          simp only [List.length_append, List.length_singleton] at hle
          simp only [List.length_cons]
          omega
        · right
          refine ⟨h2, ?_, ?_⟩
          · rw [heq, List.append_assoc, List.singleton_append]
          · simp only [List.length_append, List.length_singleton] at hlt
            simp only [List.length_cons]
            omega

lemma countValid_cons (p : List String) (ps : List (List String)) :
    countValid (p :: ps) = (pageValid p).length + countValid ps := by
  simp [countValid]

lemma listS3Go_spec (L : Nat) (hL : 1 ≤ L) (pages : List (List String)) :
    ∀ acc : List String, acc.length < L →
      L ≤ acc.length + countValid pages →
      (listS3Go (some (L : Int)) pages acc).1.length = L ∧
      L ≤ acc.length +
        countValid (pages.take (listS3Go (some (L : Int)) pages acc).2) ∧
      acc.length +
        countValid
          (pages.take ((listS3Go (some (L : Int)) pages acc).2 - 1)) < L := by
  induction pages with
  | nil =>
    intro acc hacc htot
    simp [countValid] at htot
    omega
  | cons page rest ih =>
    intro acc hacc htot
    rcases listPageGo_spec L hL page acc hacc with ⟨h2, hlen, hle⟩ |
      ⟨h2, heq, hlt⟩
    · have hstep : listS3Go (some (L : Int)) (page :: rest) acc =
          ((listPageGo (some (L : Int)) page acc).1, 1) := by
        simp [listS3Go, h2]
      rw [hstep]
      refine ⟨hlen, ?_, ?_⟩
      · simp [countValid_cons, countValid]
        omega
      · simpa [countValid] using hacc
    · have hstep : listS3Go (some (L : Int)) (page :: rest) acc =
          ((listS3Go (some (L : Int)) rest (acc ++ pageValid page)).1,
           (listS3Go (some (L : Int)) rest (acc ++ pageValid page)).2 + 1) := by
        simp only [listS3Go, h2, heq]
        simp
      have hacc' : (acc ++ pageValid page).length < L := by simp; omega
      have htot' : L ≤ (acc ++ pageValid page).length + countValid rest := by
        rw [countValid_cons] at htot
        simp only [List.length_append]
        omega
      have hih := ih (acc ++ pageValid page) hacc' htot'
      rw [hstep]
      obtain ⟨hih1, hih2, hih3⟩ := hih
      refine ⟨hih1, ?_, ?_⟩
      · rw [List.take_succ_cons, countValid_cons]
        simp only [List.length_append] at hih2
        omega
      · rcases hn : (listS3Go (some (L : Int)) rest
            (acc ++ pageValid page)).2 with _ | m
        · simpa [countValid] using hacc
        · rw [hn] at hih3
          simp only [Nat.add_sub_cancel, List.take_succ_cons, countValid_cons]
          simp only [List.length_append, Nat.succ_sub_one] at hih3
          omega

/-- One object of the Amazon bin-images listing together with its local
environment: its S3 key, whether the destination file already exists
(os.path.exists(local_path)), and the behaviour of s3.download_file on the
k-th attempt of the retry-wrapped fetch_image (whose body either raises or
returns True). -/
structure BinObject where
  key : String
  localExists : Bool
  fetchAt : Nat → Except String Unit

/-- Inner object loop of download_amazon_images (data_loader.py lines
166-183): at the top of each object iteration, count >= target_count
returns from the whole function (third component true); otherwise the key
is read — the second component counts these enumerated keys — and non-jpg
keys and already-present destinations are passed over without counting,
while a successful retry-wrapped download increments count. -/
def amazonPageGo (target : Nat) :
    List BinObject → Nat → Nat → Nat × Nat × Bool
  | [], count, enumerated => (count, enumerated, false)
  | obj :: objs, count, enumerated =>
    if count ≥ target then (count, enumerated, true)
    else
      if pyEndsWith obj.key ".jpg" then
        if obj.localExists then amazonPageGo target objs count (enumerated + 1)
        else
          if (retry_download obj.fetchAt).1.isSome then
            amazonPageGo target objs (count + 1) (enumerated + 1)
          else amazonPageGo target objs count (enumerated + 1)
      else amazonPageGo target objs count (enumerated + 1)

/-- download_amazon_images of data_loader.py (lines 153-185), as its page
loop over an explicit page sequence: pages come one at a time from the lazy
paginator (the third component of the result counts the pages fetched, so a
page pulled after the ceiling was reached is counted), pages without
Contents are passed over, and the object loop runs per page. In the script
count starts at 0; it and the enumerated-keys counter are threaded as
arguments. Returns (downloads counted, keys enumerated, pages fetched). -/
def download_amazon_images (target : Nat) :
    List (List BinObject) → Nat → Nat → Nat × Nat × Nat
  | [], count, enumerated => (count, enumerated, 0)
  | page :: rest, count, enumerated =>
    let r := amazonPageGo target page count enumerated
    if r.2.2 then (r.1, r.2.1, 1)
    else
      let res := download_amazon_images target rest r.1 r.2.1
      (res.1, res.2.1, res.2.2 + 1)

/-- C7 counterexample: with ceiling 1, a first page holding an
already-present jpg and a fresh jpg whose download succeeds, and a second
page, download_amazon_images enumerates 2 keys — not exactly 1 — and
fetches the second page although the single counted item appeared on the
first page: pre-existing keys are enumerated without counting, and the
ceiling check only runs at the top of the next object iteration, after the
lazy paginator has already yielded the next page. -/
theorem C7_counterexample :
    download_amazon_images 1
        [[⟨"bin-images/00001.jpg", true, fun _ => .ok ()⟩,
          ⟨"bin-images/00002.jpg", false, fun _ => .ok ()⟩],
         [⟨"bin-images/00003.jpg", false, fun _ => .ok ()⟩]] 0 0 =
      (1, 2, 2) ∧ (2 : Nat) ≠ 1 :=
  ⟨rfl, by decide⟩

lemma amazonPageGo_count_le (target : Nat) :
    ∀ (objs : List BinObject) (count enumerated : Nat), count ≤ target →
      (amazonPageGo target objs count enumerated).1 ≤ target := by
  intro objs
  induction objs with
  | nil => intro count enumerated h; exact h
  | cons obj rest ih =>
    intro count enumerated h
    by_cases hc : count ≥ target
    · simpa [amazonPageGo, hc] using h
    · have hlt : count < target := by omega
      by_cases hjpg : pyEndsWith obj.key ".jpg"
      · by_cases hex : obj.localExists
        · simpa [amazonPageGo, hc, hjpg, hex] using ih count (enumerated + 1) h
        · by_cases hok : (retry_download obj.fetchAt).1.isSome
          · simpa [amazonPageGo, hc, hjpg, hex, hok] using
              ih (count + 1) (enumerated + 1) (by omega)
          · simpa [amazonPageGo, hc, hjpg, hex, hok] using
              ih count (enumerated + 1) h
      · simpa [amazonPageGo, hc, hjpg] using ih count (enumerated + 1) h

lemma download_amazon_images_count_le (target : Nat) :
    ∀ (pages : List (List BinObject)) (count enumerated : Nat),
      count ≤ target →
      (download_amazon_images target pages count enumerated).1 ≤ target := by
  intro pages
  induction pages with
  | nil => intro count enumerated h; exact h
  | cons page rest ih =>
    intro count enumerated h
    have hpage := amazonPageGo_count_le target page count enumerated h
    by_cases hs : (amazonPageGo target page count enumerated).2.2
    · simpa [download_amazon_images, hs] using hpage
    · simpa [download_amazon_images, hs] using ih _ _ hpage

/-- C7 amended: the SafeDocs/UnsafeDocs object-listing enumerator
(list_s3_files) does satisfy the claim — with ceiling L >= 1 and at least L
keepable keys it returns exactly L files and consumes exactly the pages up
to the one on which the L-th keepable key appears. The Amazon image
enumerator instead bounds only successful new downloads: the count never
exceeds the ceiling, and once the ceiling is reached the function returns
at the first object of the very next fetched page, enumerating nothing
further — but uncounted keys (non-jpg, already present, failed) mean more
than L keys can be enumerated, and that one further page is fetched when
the L-th download closes a page. -/
theorem C7_amended_enumeration_bounds :
    (∀ (pages : List (List String)) (L : Nat), 1 ≤ L → L ≤ countValid pages →
      ((list_s3_files (some (L : Int)) pages).1).length = L ∧
      L ≤ countValid (pages.take (list_s3_files (some (L : Int)) pages).2) ∧
      countValid
        (pages.take ((list_s3_files (some (L : Int)) pages).2 - 1)) < L) ∧
    (∀ (target : Nat) (pages : List (List BinObject))
        (count enumerated : Nat), count ≤ target →
      (download_amazon_images target pages count enumerated).1 ≤ target) ∧
    (∀ (target : Nat) (obj : BinObject) (objs : List BinObject)
        (rest : List (List BinObject)) (count enumerated : Nat),
      target ≤ count →
      download_amazon_images target ((obj :: objs) :: rest) count enumerated =
        (count, enumerated, 1)) := by
  refine ⟨?_, download_amazon_images_count_le, ?_⟩
  · intro pages L hL hM
    have h := listS3Go_spec L hL pages [] (by simpa using hL)
      (by simpa using hM)
    simpa [list_s3_files] using h
  · intro target obj objs rest count enumerated h
    have hstop : amazonPageGo target (obj :: objs) count enumerated =
        (count, enumerated, true) := by
      simp [amazonPageGo, h]
    simp [download_amazon_images, hstop]

/-- Witness for C7 amended: the three-page listing with four keepable keys
and ceiling 3 returns exactly 3 files consuming 2 pages, and an Amazon run
whose ceiling 1 is already reached returns at the first object of the next
page with nothing more enumerated. -/
theorem C7_amended_enumeration_bounds_witness :
    (((list_s3_files (some (3 : Int))
        [["docs/", "a.pdf"], ["b.pdf", "c.pdf"], ["d.pdf"]]).1).length = 3 ∧
      (list_s3_files (some (3 : Int))
        [["docs/", "a.pdf"], ["b.pdf", "c.pdf"], ["d.pdf"]]).2 = 2) ∧
    download_amazon_images 1
        [[⟨"bin-images/00009.jpg", false, fun _ => .ok ()⟩]] 1 0 =
      (1, 0, 1) :=
  ⟨⟨(C7_amended_enumeration_bounds.1
      [["docs/", "a.pdf"], ["b.pdf", "c.pdf"], ["d.pdf"]] 3
      (by decide) (by decide)).1, by decide⟩,
   C7_amended_enumeration_bounds.2.2 1
     ⟨"bin-images/00009.jpg", false, fun _ => .ok ()⟩ [] [] 1 0 (by decide)⟩

lemma download_safedocs_run_cons (store : FileStore) (it : SItem)
    (rest : List SItem) :
    download_safedocs_run store (it :: rest) =
      ((download_single_file store it).outcome ::
        (download_safedocs_run (download_single_file store it).store rest).1,
       (download_safedocs_run (download_single_file store it).store rest).2) :=
  rfl

lemma updateStore_isSome (store : FileStore) (p : String) (sz : Nat)
    (q : String) (h : (store q).isSome = true) :
    ((updateStore store p sz) q).isSome = true := by
  unfold updateStore
  by_cases hq : q = p <;> simp [hq, h]

lemma download_single_file_store_cases (store : FileStore) (it : SItem) :
    (download_single_file store it).store = store ∨
    ∃ sz, (download_single_file store it).store = updateStore store it.path sz := by
  rw [download_single_file_eq]
  by_cases hs : (store it.path).isSome <;>
    cases h0 : it.fetchAt 0 <;> cases h1 : it.fetchAt 1 <;>
      cases h2 : it.fetchAt 2 <;> simp [hs, h0, h1, h2]

lemma download_single_file_store_mono (store : FileStore) (it : SItem)
    (q : String) (h : (store q).isSome = true) :
    (((download_single_file store it).store) q).isSome = true := by
  rcases download_single_file_store_cases store it with hst | ⟨sz, hst⟩
  · rw [hst]; exact h
  · rw [hst]; exact updateStore_isSome store it.path sz q h

lemma download_single_file_notFailed_creates (store : FileStore) (it : SItem)
    (h : (download_single_file store it).outcome.isFailed = false) :
    (((download_single_file store it).store) it.path).isSome = true := by
  rw [download_single_file_eq] at h ⊢
  by_cases hs : (store it.path).isSome
  · simp [hs]
  · cases h0 : it.fetchAt 0 <;> cases h1 : it.fetchAt 1 <;>
      cases h2 : it.fetchAt 2 <;>
        simp [hs, h0, h1, h2, updateStore, Outcome.isFailed] at h ⊢

lemma download_safedocs_run_store_mono :
    ∀ (items : List SItem) (store : FileStore) (q : String),
      (store q).isSome = true →
      (((download_safedocs_run store items).2) q).isSome = true := by
  intro items
  induction items with
  | nil => intro store q h; simpa [download_safedocs_run] using h
  | cons it rest ih =>
    intro store q h
    rw [download_safedocs_run_cons]
    exact ih _ q (download_single_file_store_mono store it q h)

lemma download_safedocs_run_covers :
    ∀ (items : List SItem) (store : FileStore),
      (∀ o ∈ (download_safedocs_run store items).1, o.isFailed = false) →
      ∀ it ∈ items,
        (((download_safedocs_run store items).2) it.path).isSome = true := by
  intro items
  induction items with
  | nil => intro store _ it hit; simp at hit
  | cons it0 rest ih =>
    intro store h it hit
    rw [download_safedocs_run_cons] at h ⊢
    rcases List.mem_cons.mp hit with rfl | hmem
    · have ho : (download_single_file store it).outcome.isFailed = false :=
        h _ (List.mem_cons_self _ _)
      exact download_safedocs_run_store_mono rest _ it.path
        (download_single_file_notFailed_creates store it ho)
    · exact ih _ (fun o ho => h o (List.mem_cons_of_mem _ ho)) it hmem

lemma download_safedocs_run_all_present :
    ∀ (items : List SItem) (store : FileStore),
      (∀ it ∈ items, (store it.path).isSome = true) →
      download_safedocs_run store items =
        (List.replicate items.length Outcome.skipped, store) := by
  intro items
  induction items with
  | nil => intro store _; rfl
  | cons it0 rest ih =>
    intro store h
    rw [download_safedocs_run_cons,
      download_single_file_of_present store it0 (h it0 (List.mem_cons_self _ _))]
    rw [ih store (fun it hit => h it (List.mem_cons_of_mem _ hit))]
    simp [List.replicate_succ]

lemma countP_replicate_outcome (p : Outcome → Bool) (o : Outcome) (n : Nat) :
    (List.replicate n o).countP p = if p o then n else 0 := by
  induction n with
  | zero => simp
  | succ m ih =>
    simp only [List.replicate_succ, List.countP_cons, ih]
    by_cases hp : p o <;> simp [hp]

lemma download_stats_replicate_skipped (n : Nat) :
    download_stats (List.replicate n Outcome.skipped) = ⟨0, n, 0⟩ := by
  rw [download_stats, stats_foldl]
  simp [countP_replicate_outcome, Outcome.isDownloaded, Outcome.isSkipped,
    Outcome.isFailed]

lemma download_stats_failed_eq_countP (os : List Outcome) :
    (download_stats os).failed = os.countP Outcome.isFailed := by
  rw [download_stats, stats_foldl]
  simp

/-- C8: idempotence of reruns. If one engine run over items completes with
zero failures, then a second run over the same items against the resulting
store (no intervening deletions) skips everything: it leaves the store
unchanged, emits Skipped for every item, and its tally is
downloaded = 0, skipped = N, failed = 0. -/
theorem C8_rerun_idempotent (store : FileStore) (items : List SItem)
    (h : (download_stats (download_safedocs_run store items).1).failed = 0) :
    download_safedocs_run (download_safedocs_run store items).2 items =
      (List.replicate items.length Outcome.skipped,
       (download_safedocs_run store items).2) ∧
    download_stats
        (download_safedocs_run
          (download_safedocs_run store items).2 items).1 =
      ⟨0, items.length, 0⟩ := by
  have hcount : ((download_safedocs_run store items).1).countP
      Outcome.isFailed = 0 := by
    rw [← download_stats_failed_eq_countP]
    exact h
  have hnofail : ∀ o ∈ (download_safedocs_run store items).1,
      o.isFailed = false := by
    intro o ho
    have := (List.countP_eq_zero.mp hcount) o ho
    simpa using this
  have hcov := download_safedocs_run_covers items store hnofail
  have hall := download_safedocs_run_all_present items
    (download_safedocs_run store items).2 hcov
  refine ⟨hall, ?_⟩
  rw [hall]
  exact download_stats_replicate_skipped items.length

/-- Witness for C8: a first run over two fresh items downloads both with no
failure, and the second run over the same items skips both. -/
theorem C8_rerun_idempotent_witness :
    (download_stats (download_safedocs_run (fun _ => none)
        [⟨"k1", "p1", fun _ => .ok 5⟩, ⟨"k2", "p2", fun _ => .ok 6⟩]).1).failed
      = 0 ∧
    download_stats
        (download_safedocs_run
          (download_safedocs_run (fun _ => none)
            [⟨"k1", "p1", fun _ => .ok 5⟩, ⟨"k2", "p2", fun _ => .ok 6⟩]).2
          [⟨"k1", "p1", fun _ => .ok 5⟩, ⟨"k2", "p2", fun _ => .ok 6⟩]).1 =
      ⟨0, 2, 0⟩ :=
  ⟨rfl,
   (C8_rerun_idempotent (fun _ => none)
     [⟨"k1", "p1", fun _ => .ok 5⟩, ⟨"k2", "p2", fun _ => .ok 6⟩] rfl).2⟩

/-- Python truthiness of an optional string argument: argparse yields None
when the flag is absent, and the empty string is also falsy. -/
def pyTruthyStr : Option String → Bool
  | none => false
  | some s => s ≠ ""

/-- Python truthiness of an optional integer argument: argparse yields None
when the flag is absent, and 0 is also falsy. -/
def pyTruthyInt : Option Int → Bool
  | none => false
  | some n => n != 0

/-- files field of the DOWNLOAD_TIERS table of download_safedocs.py (lines
31-72); none for a name outside the table. -/
def DOWNLOAD_TIERS : String → Option Nat := fun t =>
  if t = "tiny" then some 1000
  else if t = "sample" then some 10000
  else if t = "small" then some 50000
  else if t = "medium" then some 100000
  else if t = "large" then some 500000
  else if t = "xlarge" then some 1000000
  else if t = "xxlarge" then some 2000000
  else if t = "complete" then some 8000000
  else none

/-- choices validation of the --tier flag (download_safedocs.py line 259,
enforced by parse_args at line 268): an explicitly supplied tier name
outside the DOWNLOAD_TIERS table makes argparse exit with code 2; an absent
tier passes. -/
def tierChoiceInvalid : Option String → Bool
  | some t => (DOWNLOAD_TIERS t).isNone
  | none => false

/-- main of download_safedocs.py (lines 268-292; download_unsafedocs.py is
identical) composed with the limit determination of download_safedocs (lines
139-153) and with list_s3_files. parse_args runs first and rejects a --tier
outside the choices list with exit code 2; then the two `if not args.tier
and not args.limit` / `if args.tier and args.limit` validations run, and
parser.error also terminates the process with exit code 2 (the Except error
value) — all before the S3 listing is consulted. `.ok (some files)` models
a run that listed files; the inner none branches of the tier match are
unreachable (choices already rejected those tiers). The interactive
confirmation for large downloads and the fetching that follows the listing
are outside the decision modelled here. -/
def safedocs_main (tier : Option String) (limit : Option Int)
    (pages : List (List String)) : Except Nat (Option (List String)) :=
  if tierChoiceInvalid tier then .error 2
  else if !pyTruthyStr tier && !pyTruthyInt limit then .error 2
  else if pyTruthyStr tier && pyTruthyInt limit then .error 2
  else
    if pyTruthyStr tier then
      match tier with
      | some t =>
        match DOWNLOAD_TIERS t with
        | some n => .ok (some (list_s3_files (some (n : Int)) pages).1)
        | none => .ok none
      | none => .ok none
    else if pyTruthyInt limit then .ok (some (list_s3_files limit pages).1)
    else .ok (some (list_s3_files none pages).1)

lemma DOWNLOAD_TIERS_truthy {t : String} {n : Nat}
    (h : DOWNLOAD_TIERS t = some n) : pyTruthyStr (some t) = true := by
  rcases eq_or_ne t "" with rfl | hne
  · have hempty : DOWNLOAD_TIERS "" = none := rfl
    rw [hempty] at h
    cases h
  · simp [pyTruthyStr, hne]

/-- C9 counterexample: with both flags supplied as tier "tiny" and limit 0,
the entry point does not raise a usage error — Python truthiness makes a
limit of 0 count as absent, so the run proceeds with the tier (here over an
empty listing). The claim says supplying both must terminate with a
non-zero exit code. -/
theorem C9_counterexample :
    safedocs_main (some "tiny") (some 0) [] = Except.ok (some []) := rfl

/-- C9 amended: the entry point exits with usage-error code 2 exactly when
either the supplied tier name is outside argparse's choices list (rejected
at parse time regardless of the limit), or the tier and limit arguments
have the same Python truthiness — both supplied and truthy, or both
effectively absent (an omitted flag, or a limit of 0, which truthiness
makes count as not supplied). The usage error is decided before the S3
listing is consulted: on a usage error the result does not depend on the
page sequence at all. -/
theorem C9_amended_usage_error_characterisation :
    (∀ (tier : Option String) (limit : Option Int)
        (pages : List (List String)),
        safedocs_main tier limit pages = .error 2 ↔
          (tierChoiceInvalid tier = true ∨
            pyTruthyStr tier = pyTruthyInt limit)) ∧
    (∀ (tier : Option String) (limit : Option Int)
        (pages pages' : List (List String)),
        safedocs_main tier limit pages = .error 2 →
        safedocs_main tier limit pages = safedocs_main tier limit pages') ∧
    (2 : Nat) ≠ 0 := by
  have hiff : ∀ (tier : Option String) (limit : Option Int)
      (pages : List (List String)),
      safedocs_main tier limit pages = .error 2 ↔
        (tierChoiceInvalid tier = true ∨
          pyTruthyStr tier = pyTruthyInt limit) := by
    intro tier limit pages
    cases tier with
    | none =>
      cases hb2 : pyTruthyInt limit <;>
        simp [safedocs_main, tierChoiceInvalid, pyTruthyStr, hb2]
    | some t =>
      cases hdt : DOWNLOAD_TIERS t with
      | none => simp [safedocs_main, tierChoiceInvalid, hdt]
      | some n =>
        have hb1 : pyTruthyStr (some t) = true := DOWNLOAD_TIERS_truthy hdt
        cases hb2 : pyTruthyInt limit <;>
          simp [safedocs_main, tierChoiceInvalid, hdt, hb1, hb2]
  refine ⟨hiff, ?_, by omega⟩
  intro tier limit pages pages' herr
  rw [herr, ((hiff tier limit pages').mpr ((hiff tier limit pages).mp herr))]

/-- Witness for C9 amended: with neither flag supplied the result is the
usage error, exit code 2, independent of what the listing would have
returned. -/
theorem C9_amended_usage_error_witness :
    safedocs_main none none [["a.pdf"]] = safedocs_main none none [] :=
  C9_amended_usage_error_characterisation.2.1 none none [["a.pdf"]] [] rfl

/-- Python range(a, b) over integers: a, a + 1, ..., b - 1 (empty when
b ≤ a). -/
def pyRange (a b : Int) : List Int :=
  (List.range (b - a).toNat).map (fun (i : Nat) => a + (i : Int))

lemma mem_pyRange (a b i : Int) (hi : i ∈ pyRange a b) : a ≤ i ∧ i < b := by
  rw [pyRange] at hi
  rcases List.mem_map.mp hi with ⟨j, hjr, rfl⟩
  have hj := List.mem_range.mp hjr
  have hj' : (j : Int) < b - a := by omega
  constructor <;> omega

/-- Argument validation and clamping of the GovDocs entry point
(download_govdocs.py lines 287-294) composed with the
`range(start_thread, start_thread + num_threads)` of download_govdocs (line
150): a start outside [0, 999] exits the process with code 1 before any
download; otherwise, when start + threads exceeds 1000 the thread count is
clamped to 1000 - start, and the resulting list of requested shard indices
is returned. -/
def govdocs_main (start numThreads : Int) : Except Nat (List Int) :=
  if start < 0 || start ≥ 1000 then .error 1
  else
    let n := if start + numThreads > 1000 then 1000 - start else numThreads
    .ok (pyRange start (start + n))

/-- C10: every shard index the GovDocs downloader ever requests lies in
[0, 999]; a start outside [0, 999] exits with code 1 before any download;
and whenever start + threads exceeds 1000 the count is clamped to
1000 - start, so the requested range ends at shard 999. -/
theorem C10_shard_range_clamped :
    (∀ (start numThreads : Int) (L : List Int),
        govdocs_main start numThreads = .ok L →
        ∀ i ∈ L, 0 ≤ i ∧ i ≤ 999) ∧
    (∀ start numThreads : Int, (start < 0 ∨ 1000 ≤ start) →
        govdocs_main start numThreads = .error 1) ∧
    (∀ start numThreads : Int, 0 ≤ start → start < 1000 →
        1000 < start + numThreads →
        govdocs_main start numThreads = .ok (pyRange start 1000)) := by
  refine ⟨?_, ?_, ?_⟩
  · intro start numThreads L hok i hi
    unfold govdocs_main at hok
    by_cases hv : (start < 0 || start ≥ 1000) = true
    · simp [hv] at hok
    · simp only [hv, Bool.false_eq_true, if_false] at hok
      simp only [Bool.or_eq_true, decide_eq_true_eq, not_or, ge_iff_le] at hv
      rw [Except.ok.injEq] at hok
      subst hok
      obtain ⟨h1, h2⟩ := mem_pyRange _ _ i hi
      by_cases hc : 1000 < start + numThreads
      · rw [if_pos hc] at h2
        constructor <;> omega
      · rw [if_neg hc] at h2
        constructor <;> omega
  · intro start numThreads h
    unfold govdocs_main
    have hv : (start < 0 || start ≥ 1000) = true := by
      rcases h with h | h <;> simp [h]
    rw [if_pos hv]
  · intro start numThreads h0 h1 h2
    unfold govdocs_main
    have hv : (start < 0 || start ≥ 1000) = false := by
      simp only [Bool.or_eq_false_iff, decide_eq_false_iff_not, ge_iff_le,
        not_le, not_lt]
      exact ⟨h0, h1⟩
    rw [if_neg (by simp [hv]), if_pos h2]
    have harith : start + (1000 - start) = 1000 := by ring
    show Except.ok (pyRange start (start + (1000 - start))) =
      Except.ok (pyRange start 1000)
    rw [harith]

/-- Witness for C10: starting at shard 990 and requesting 20 shards clamps
the count to 10, giving the range 990..999, and the member shard index 995
of that range is within [0, 999]. -/
theorem C10_shard_range_clamped_witness :
    govdocs_main 990 20 = Except.ok (pyRange 990 1000) ∧
    (0 ≤ (995 : Int) ∧ (995 : Int) ≤ 999) :=
  ⟨C10_shard_range_clamped.2.2 990 20 (by decide) (by decide) (by decide),
   C10_shard_range_clamped.1 990 20 (pyRange 990 1000)
     (C10_shard_range_clamped.2.2 990 20 (by decide) (by decide) (by decide))
     995 (by decide)⟩
